import Mathlib

/-!
Shallow embedding of `src/frontend/src/utils/taskHelpers.ts`.

JavaScript runtime values are modelled by the inductive type `Value`.
Property access on `null`/`undefined` throws a TypeError in JavaScript, so
field access is modelled by an `Option`-valued function (`none` = exception),
and every helper of the module is embedded as a function `Value → Option Value`
written in the `Option` monad: a `none` result means the JavaScript function
would raise.
-/

/-- A JavaScript runtime value. Numbers are modelled as integers (the module
never does arithmetic), `vDate a` models the object `new Date(a)` (the
constructor never throws, whatever `a` is). -/
inductive Value where
  | vNull : Value
  | vUndefined : Value
  | vBool : Bool → Value
  | vNum : Int → Value
  | vStr : String → Value
  | vObj : List (String × Value) → Value
  | vArr : List Value → Value
  | vDate : Value → Value

open Value

/-- JavaScript strict equality `v === 's'` against a string literal: true
exactly when `v` is a string with the same contents (a non-string is never
`===` to a string). -/
def strictEqStr : Value → String → Bool
  | vStr t, s => t == s
  | _, _ => false

/-- JavaScript truthiness: `null`, `undefined`, `false`, `0` and `""` are
falsy; every object, array and date is truthy. -/
def truthy : Value → Bool
  | vNull => false
  | vUndefined => false
  | vBool b => b
  | vNum n => n != 0
  | vStr s => s != ""
  | vObj _ => true
  | vArr _ => true
  | vDate _ => true

/-- `v` is `null` or `undefined` (the values on which property access throws). -/
def isNullish : Value → Bool
  | vNull => true
  | vUndefined => true
  | _ => false

/-- Own enumerable string-keyed properties, as an association list: objects
expose their fields, arrays and strings expose their elements under the
decimal index keys (this is what object spread `{...v}` copies); other
primitives have none. -/
def ownFields : Value → List (String × Value)
  | vObj fs => fs
  | vArr es => es.enum.map (fun p => (toString p.1, p.2))
  | vStr s => s.data.enum.map (fun p => (toString p.1, vStr (String.mk [p.2])))
  | _ => []

/-- First binding of key `k` in an association list of properties. -/
def lookupKey : List (String × Value) → String → Option Value
  | [], _ => none
  | (a, b) :: rest, k => if a = k then some b else lookupKey rest k

/-- The value of property `k` of a non-nullish `v`: the first binding in its
own fields, `undefined` when absent. -/
def fld (v : Value) (k : String) : Value :=
  (lookupKey (ownFields v) k).getD vUndefined

/-- JavaScript property access `v.k`: throws (`none`) on `null`/`undefined`,
otherwise reads the own property (absent properties read as `undefined`). -/
def access (v : Value) (k : String) : Option Value :=
  if isNullish v then none else some (fld v k)

/-- JavaScript optional chaining `v?.k`: `undefined` when `v` is nullish,
otherwise the property read (never throws). -/
def optAccess (v : Value) (k : String) : Value :=
  if isNullish v then vUndefined else fld v k

/-- JavaScript `a || b`: `a` when `a` is truthy, else `b`. -/
def jsOr (a b : Value) : Value :=
  if truthy a then a else b

/-- Object-literal update used by spread-with-overrides: replace the first
binding of `k` in place, or append it when absent. -/
def setKey : List (String × Value) → String → Value → List (String × Value)
  | [], k, v => [(k, v)]
  | (a, b) :: rest, k, v =>
      if a = k then (k, v) :: rest else (a, b) :: setKey rest k v

/-- `getFileId` (taskHelpers.ts lines 13-23): falsy input gives `null`, else
`item.file_id || item.permit_file_id || item.source?.permit_file_id ||
item.source?.file_id || null`. `||` short-circuits in JavaScript, but every
operand here is an effect-free property read on a receiver already known to
be non-nullish, so eager evaluation is observationally equal. -/
def getFileId (item : Value) : Option Value :=
  if !truthy item then some vNull
  else do
    let a ← access item "file_id"
    let b ← access item "permit_file_id"
    let s ← access item "source"
    let c := optAccess s "permit_file_id"
    let d := optAccess s "file_id"
    pure (jsOr a (jsOr b (jsOr c (jsOr d vNull))))

/-- `isStandaloneTask` (lines 28-35): falsy input gives `false`; explicit
`tracking_mode === 'STANDALONE'` gives `true`, `=== 'FILE_BASED'` gives
`false`; otherwise `!getFileId(task)`. -/
def isStandaloneTask (task : Value) : Option Value :=
  if !truthy task then some (vBool false)
  else do
    let tm ← access task "tracking_mode"
    if strictEqStr tm "STANDALONE" then pure (vBool true)
    else if strictEqStr tm "FILE_BASED" then pure (vBool false)
    else do
      let fid ← getFileId task
      pure (vBool (!truthy fid))

/-- `getTrackingMode` (lines 40-48): falsy input gives `'STANDALONE'`; a
truthy `task.tracking_mode` is returned verbatim (the `as TrackingMode` cast
performs no runtime check); otherwise `getFileId(task) ? 'FILE_BASED' :
'STANDALONE'`. -/
def getTrackingMode (task : Value) : Option Value :=
  if !truthy task then some (vStr "STANDALONE")
  else do
    let tm ← access task "tracking_mode"
    if truthy tm then pure tm
    else do
      let fid ← getFileId task
      pure (if truthy fid then vStr "FILE_BASED" else vStr "STANDALONE")

/-- `normalizeTask` (lines 53-65): falsy input is returned as is; otherwise
`{...task, file_id: getFileId(task), tracking_mode: getTrackingMode(task),
assigned_to: task.assigned_to || task.assignment || task.employee_code}`. -/
def normalizeTask (task : Value) : Option Value :=
  if !truthy task then some task
  else do
    let fileId ← getFileId task
    let trackingMode ← getTrackingMode task
    let a ← access task "assigned_to"
    let b ← access task "assignment"
    let c ← access task "employee_code"
    pure (vObj (setKey
      (setKey (setKey (ownFields task) "file_id" fileId)
        "tracking_mode" trackingMode)
      "assigned_to" (jsOr a (jsOr b c))))

/-- Elementwise `tasks.map(normalizeTask)` in index order: if `normalizeTask`
threw at some element, later elements would not be processed. -/
def mapNormalize : List Value → Option (List Value)
  | [] => some []
  | t :: ts => do
      let n ← normalizeTask t
      let ns ← mapNormalize ts
      pure (n :: ns)

/-- `normalizeTasks` (lines 70-73): a non-array gives `[]`; an array is
mapped elementwise through `normalizeTask`. -/
def normalizeTasks (tasks : Value) : Option Value :=
  match tasks with
  | vArr es => do
      let outs ← mapNormalize es
      pure (vArr outs)
  | _ => some (vArr [])

/-- `getFileDisplayName` (lines 78-87): `'Standalone Task'` when no file id
resolves, else `item.file_name`, `item.original_filename`, or the id. -/
def getFileDisplayName (item : Value) : Option Value := do
  let fid ← getFileId item
  if !truthy fid then pure (vStr "Standalone Task")
  else do
    let fn ← access item "file_name"
    if truthy fn then pure fn
    else do
      let ofn ← access item "original_filename"
      if truthy ofn then pure ofn
      else pure fid

/-- `getAssignmentInfo` (lines 99-123): falsy input gives `null`; a truthy
`file.current_assignment` yields the new-format record; else a truthy
`file.assignment` yields the legacy-format record with `assignedToName:
undefined`; else `null`. The source re-reads `file.current_assignment` /
`file.assignment` for each field; `file` is truthy here, so binding the
nested object once is observationally equal. -/
def getAssignmentInfo (file : Value) : Option Value :=
  if !truthy file then some vNull
  else do
    let ca ← access file "current_assignment"
    if truthy ca then do
      let e ← access ca "employee_code"
      let en ← access ca "employee_name"
      let at' ← access ca "assigned_at"
      let st ← access ca "stage"
      pure (vObj [("assignedTo", e), ("assignedToName", en),
                  ("assignedAt", vDate at'), ("stage", st)])
    else do
      let a ← access file "assignment"
      if truthy a then do
        let e ← access a "assigned_to"
        let at' ← access a "assigned_at"
        let st ← access a "assigned_for_stage"
        pure (vObj [("assignedTo", e), ("assignedToName", vUndefined),
                    ("assignedAt", vDate at'), ("stage", st)])
      else pure vNull

/-- `getAssignedTo` (lines 128-138): falsy input gives `null`, else
`task.assigned_to || task.assignment || task.employee_code ||
task.assigned_to_employee_code || null`. -/
def getAssignedTo (task : Value) : Option Value :=
  if !truthy task then some vNull
  else do
    let a ← access task "assigned_to"
    let b ← access task "assignment"
    let c ← access task "employee_code"
    let d ← access task "assigned_to_employee_code"
    pure (jsOr a (jsOr b (jsOr c (jsOr d vNull))))

/-- `formatTrackingMode` (lines 143-145): at runtime any value is accepted;
only `'FILE_BASED'` maps to `'File-Based'`, everything else to
`'Standalone'`. -/
def formatTrackingMode (mode : Value) : Option Value :=
  some (if strictEqStr mode "FILE_BASED" then vStr "File-Based" else vStr "Standalone")

/-- `getTrackingModeBadgeVariant` (lines 150-152): `'FILE_BASED'` maps to
`'default'`, everything else to `'secondary'`. -/
def getTrackingModeBadgeVariant (mode : Value) : Option Value :=
  some (if strictEqStr mode "FILE_BASED" then vStr "default" else vStr "secondary")

/-!
Value-level characterizations. Each monadic embedding above is proved equal
to `some` of a pure value-level function; this also establishes that none of
the embedded functions ever raises.
-/

/-- Value computed by `getFileId` on truthy input: the `||`-chain of the two
top-level and the two nested identifier fields, then `null`. -/
def getFileIdVal (item : Value) : Value :=
  if !truthy item then vNull
  else jsOr (fld item "file_id") (jsOr (fld item "permit_file_id")
    (jsOr (optAccess (fld item "source") "permit_file_id")
      (jsOr (optAccess (fld item "source") "file_id") vNull)))

/-- Value computed by `isStandaloneTask`. -/
def isStandaloneTaskVal (task : Value) : Value :=
  if !truthy task then vBool false
  else if strictEqStr (fld task "tracking_mode") "STANDALONE" then vBool true
  else if strictEqStr (fld task "tracking_mode") "FILE_BASED" then vBool false
  else vBool (!truthy (getFileIdVal task))

/-- Value computed by `getTrackingMode`. -/
def getTrackingModeVal (task : Value) : Value :=
  if !truthy task then vStr "STANDALONE"
  else if truthy (fld task "tracking_mode") then fld task "tracking_mode"
  else if truthy (getFileIdVal task) then vStr "FILE_BASED" else vStr "STANDALONE"

/-- Value computed by `normalizeTask`. -/
def normalizeTaskVal (task : Value) : Value :=
  if !truthy task then task
  else vObj (setKey
    (setKey (setKey (ownFields task) "file_id" (getFileIdVal task))
      "tracking_mode" (getTrackingModeVal task))
    "assigned_to" (jsOr (fld task "assigned_to")
      (jsOr (fld task "assignment") (fld task "employee_code"))))

/-- Value computed by `getAssignedTo`. -/
def getAssignedToVal (task : Value) : Value :=
  if !truthy task then vNull
  else jsOr (fld task "assigned_to") (jsOr (fld task "assignment")
    (jsOr (fld task "employee_code")
      (jsOr (fld task "assigned_to_employee_code") vNull)))

/-- Value computed by `getFileDisplayName`. -/
def getFileDisplayNameVal (item : Value) : Value :=
  if !truthy (getFileIdVal item) then vStr "Standalone Task"
  else if truthy (fld item "file_name") then fld item "file_name"
  else if truthy (fld item "original_filename") then fld item "original_filename"
  else getFileIdVal item

/-- Value computed by `getAssignmentInfo`. -/
def getAssignmentInfoVal (file : Value) : Value :=
  if !truthy file then vNull
  else if truthy (fld file "current_assignment") then
    vObj [("assignedTo", fld (fld file "current_assignment") "employee_code"),
          ("assignedToName", fld (fld file "current_assignment") "employee_name"),
          ("assignedAt", vDate (fld (fld file "current_assignment") "assigned_at")),
          ("stage", fld (fld file "current_assignment") "stage")]
  else if truthy (fld file "assignment") then
    vObj [("assignedTo", fld (fld file "assignment") "assigned_to"),
          ("assignedToName", vUndefined),
          ("assignedAt", vDate (fld (fld file "assignment") "assigned_at")),
          ("stage", fld (fld file "assignment") "assigned_for_stage")]
  else vNull

lemma not_nullish_of_truthy {v : Value} (h : truthy v = true) : isNullish v = false := by
  cases v <;> simp_all [truthy, isNullish]

lemma access_eq_of_truthy {v : Value} (h : truthy v = true) (k : String) :
    access v k = some (fld v k) := by
  simp [access, not_nullish_of_truthy h]

lemma getFileId_eq (v : Value) : getFileId v = some (getFileIdVal v) := by
  cases h : truthy v with
  | false => simp [getFileId, getFileIdVal, h]
  | true => simp [getFileId, getFileIdVal, h, access_eq_of_truthy h]

lemma isStandaloneTask_eq (v : Value) :
    isStandaloneTask v = some (isStandaloneTaskVal v) := by
  cases h : truthy v with
  | false => simp [isStandaloneTask, isStandaloneTaskVal, h]
  | true =>
    simp only [isStandaloneTask, isStandaloneTaskVal, h, Bool.not_true,
      Bool.false_eq_true, if_false, access_eq_of_truthy h, Option.bind_some,
      getFileId_eq]
    cases h1 : strictEqStr (fld v "tracking_mode") "STANDALONE" <;>
      cases h2 : strictEqStr (fld v "tracking_mode") "FILE_BASED" <;>
        simp [h1, h2]

lemma getTrackingMode_eq (v : Value) :
    getTrackingMode v = some (getTrackingModeVal v) := by
  cases h : truthy v with
  | false => simp [getTrackingMode, getTrackingModeVal, h]
  | true =>
    simp only [getTrackingMode, getTrackingModeVal, h, Bool.not_true,
      Bool.false_eq_true, if_false, access_eq_of_truthy h, Option.bind_some,
      getFileId_eq]
    cases h1 : truthy (fld v "tracking_mode") <;> simp [h1]

lemma normalizeTask_eq (v : Value) : normalizeTask v = some (normalizeTaskVal v) := by
  cases h : truthy v with
  | false => simp [normalizeTask, normalizeTaskVal, h]
  | true =>
    simp [normalizeTask, normalizeTaskVal, h, access_eq_of_truthy h,
      getFileId_eq, getTrackingMode_eq]

lemma getAssignedTo_eq (v : Value) : getAssignedTo v = some (getAssignedToVal v) := by
  cases h : truthy v with
  | false => simp [getAssignedTo, getAssignedToVal, h]
  | true => simp [getAssignedTo, getAssignedToVal, h, access_eq_of_truthy h]

lemma truthy_getFileIdVal_imp {v : Value} (h : truthy (getFileIdVal v) = true) :
    truthy v = true := by
  by_contra hv
  simp only [Bool.not_eq_true] at hv
  have hnull : getFileIdVal v = vNull := by simp [getFileIdVal, hv]
  rw [hnull] at h
  simp [truthy] at h

lemma getFileDisplayName_eq (v : Value) :
    getFileDisplayName v = some (getFileDisplayNameVal v) := by
  cases h : truthy (getFileIdVal v) with
  | false => simp [getFileDisplayName, getFileDisplayNameVal, getFileId_eq, h]
  | true =>
    have hv : truthy v = true := truthy_getFileIdVal_imp h
    simp only [getFileDisplayName, getFileDisplayNameVal, getFileId_eq, h,
      Bool.not_true, Bool.false_eq_true, if_false, access_eq_of_truthy hv,
      Option.bind_some]
    cases h1 : truthy (fld v "file_name") <;>
      cases h2 : truthy (fld v "original_filename") <;> simp [h1, h2, h]

lemma getAssignmentInfo_eq (v : Value) :
    getAssignmentInfo v = some (getAssignmentInfoVal v) := by
  cases h : truthy v with
  | false => simp [getAssignmentInfo, getAssignmentInfoVal, h]
  | true =>
    simp only [getAssignmentInfo, getAssignmentInfoVal, h, Bool.not_true,
      Bool.false_eq_true, if_false, access_eq_of_truthy h, Option.bind_some]
    cases hca : truthy (fld v "current_assignment") with
    | true => simp [hca, access_eq_of_truthy hca]
    | false =>
      cases ha : truthy (fld v "assignment") with
      | true => simp [hca, ha, access_eq_of_truthy ha]
      | false => simp [hca, ha]

lemma mapNormalize_eq (es : List Value) :
    mapNormalize es = some (es.map normalizeTaskVal) := by
  induction es with
  | nil => rfl
  | cons e rest ih => simp [mapNormalize, normalizeTask_eq, ih]

lemma normalizeTasks_arr (es : List Value) :
    normalizeTasks (vArr es) = some (vArr (es.map normalizeTaskVal)) := by
  simp [normalizeTasks, mapNormalize_eq]

lemma jsOr_of_truthy {a : Value} (h : truthy a = true) (b : Value) : jsOr a b = a := by
  simp [jsOr, h]

lemma jsOr_of_falsy {a : Value} (h : truthy a = false) (b : Value) : jsOr a b = b := by
  simp [jsOr, h]

lemma jsOr_self (r : Value) : jsOr r r = r := by
  cases h : truthy r <;> simp [jsOr, h]

lemma jsOr_absorb (a r : Value) : jsOr (jsOr a r) r = jsOr a r := by
  cases h : truthy a <;> simp [jsOr, h, jsOr_self]

lemma lookup_setKey_self (l : List (String × Value)) (k : String) (v : Value) :
    lookupKey (setKey l k v) k = some v := by
  induction l with
  | nil => simp [setKey, lookupKey]
  | cons p rest ih =>
    obtain ⟨a, b⟩ := p
    by_cases h : a = k
    · simp [setKey, h, lookupKey]
    · simp [setKey, h, lookupKey, ih]

lemma lookup_setKey_ne (l : List (String × Value)) {k kk : String} (v : Value)
    (h : k ≠ kk) : lookupKey (setKey l k v) kk = lookupKey l kk := by
  induction l with
  | nil => simp [setKey, lookupKey, h]
  | cons p rest ih =>
    obtain ⟨a, b⟩ := p
    by_cases ha : a = k
    · subst ha; simp [setKey, lookupKey, h]
    · by_cases hk : a = kk <;> simp [setKey, ha, lookupKey, hk, ih, Ne.symm h]

lemma truthy_of_truthy_fld {t : Value} {k : String} (h : truthy (fld t k) = true) :
    truthy t = true := by
  cases t with
  | vStr s =>
    by_cases hs : s = ""
    · subst hs; simp [fld, ownFields, lookupKey, truthy] at h
    · simp [truthy, hs]
  | vNull => simp [fld, ownFields, lookupKey, truthy] at h
  | vUndefined => simp [fld, ownFields, lookupKey, truthy] at h
  | vBool b => simp [fld, ownFields, lookupKey, truthy] at h
  | vNum n => simp [fld, ownFields, lookupKey, truthy] at h
  | vObj fs => simp [truthy]
  | vArr es => simp [truthy]
  | vDate a => simp [truthy]

/-- On a truthy value, the three overlay writes of `normalizeTask` leave every
other property unchanged. -/
lemma fld_normalizeTaskVal_ne {t : Value} (ht : truthy t = true) {k : String}
    (h1 : k ≠ "file_id") (h2 : k ≠ "tracking_mode") (h3 : k ≠ "assigned_to") :
    fld (normalizeTaskVal t) k = fld t k := by
  simp [normalizeTaskVal, ht, fld, ownFields,
    lookup_setKey_ne _ _ (Ne.symm h3), lookup_setKey_ne _ _ (Ne.symm h2),
    lookup_setKey_ne _ _ (Ne.symm h1)]

lemma fld_normalizeTaskVal_fileId {t : Value} (ht : truthy t = true) :
    fld (normalizeTaskVal t) "file_id" = getFileIdVal t := by
  have h1 : ("tracking_mode" : String) ≠ "file_id" := by decide
  have h2 : ("assigned_to" : String) ≠ "file_id" := by decide
  simp [normalizeTaskVal, ht, fld, ownFields,
    lookup_setKey_ne _ _ h2, lookup_setKey_ne _ _ h1, lookup_setKey_self]

lemma fld_normalizeTaskVal_assignedTo {t : Value} (ht : truthy t = true) :
    fld (normalizeTaskVal t) "assigned_to" =
      jsOr (fld t "assigned_to") (jsOr (fld t "assignment") (fld t "employee_code")) := by
  simp [normalizeTaskVal, ht, fld, ownFields, lookup_setKey_self]

lemma getD_map_normalizeTaskVal (es : List Value) (i : Nat) (hi : i < es.length) :
    (es.map normalizeTaskVal).getD i vNull = normalizeTaskVal (es.getD i vNull) := by
  induction es generalizing i with
  | nil => exact absurd hi (Nat.not_lt_zero i)
  | cons e rest ih =>
    cases i with
    | zero => rfl
    | succ n =>
      simp only [List.map_cons, List.getD_cons_succ]
      exact ih n (Nat.lt_of_succ_lt_succ hi)

/-!
The claims, settled against the embedding.
-/

/-- C1 counterexample: an explicit non-enum `tracking_mode` such as
`'NOT_A_MODE'` is returned verbatim by `getTrackingMode` (the `as
TrackingMode` cast checks nothing at runtime), so an invalid explicit value
is not treated as absent and the result is not always in
`{FILE_BASED, STANDALONE}`. -/
theorem getTrackingMode_invalid_enum_counterexample :
    getTrackingMode (vObj [("tracking_mode", vStr "NOT_A_MODE")])
        = some (vStr "NOT_A_MODE")
      ∧ vStr "NOT_A_MODE" ≠ vStr "FILE_BASED"
      ∧ vStr "NOT_A_MODE" ≠ vStr "STANDALONE" := by
  refine ⟨rfl, ?_, ?_⟩ <;>
    (intro h; injection h with h; exact absurd h (by decide))

/-- C1 (amended): `getTrackingMode` returns `STANDALONE` on falsy input;
any truthy explicit `tracking_mode` is returned verbatim, enum member or
not; only a falsy/absent `tracking_mode` falls through to identifier-based
inference via `getFileId` (present identifier gives `FILE_BASED`, absent
gives `STANDALONE`). -/
theorem getTrackingMode_contract (t : Value) :
    (truthy t = false → getTrackingMode t = some (vStr "STANDALONE"))
  ∧ (truthy t = true → truthy (fld t "tracking_mode") = true →
      getTrackingMode t = some (fld t "tracking_mode"))
  ∧ (truthy t = true → truthy (fld t "tracking_mode") = false →
      getFileId t = some (getFileIdVal t)
      ∧ getTrackingMode t
          = some (if truthy (getFileIdVal t) then vStr "FILE_BASED"
                  else vStr "STANDALONE")) := by
  refine ⟨fun h => ?_, fun h htm => ?_, fun h htm => ⟨getFileId_eq t, ?_⟩⟩
  · simp [getTrackingMode_eq, getTrackingModeVal, h]
  · simp [getTrackingMode_eq, getTrackingModeVal, h, htm]
  · simp [getTrackingMode_eq, getTrackingModeVal, h, htm]

/-- C1 witness: the amended contract applied to a task carrying the
non-enum explicit mode `'NOT_A_MODE'`. -/
theorem getTrackingMode_contract_witness :
    getTrackingMode (vObj [("tracking_mode", vStr "NOT_A_MODE")])
      = some (vStr "NOT_A_MODE") :=
  (getTrackingMode_contract (vObj [("tracking_mode", vStr "NOT_A_MODE")])).2.1
    rfl rfl

/-- C2 counterexample: with no top-level identifier and both nested fields
present and truthy, `getFileId` returns the nested legacy
`source.permit_file_id`, not the nested current `source.file_id`: the code
probes `source?.permit_file_id` before `source?.file_id`. -/
theorem getFileId_nested_precedence_counterexample :
    getFileId (vObj [("source",
        vObj [("file_id", vStr "NEW-1"), ("permit_file_id", vStr "OLD-1")])])
        = some (vStr "OLD-1")
      ∧ vStr "OLD-1" ≠ vStr "NEW-1" := by
  refine ⟨rfl, ?_⟩
  intro h; injection h with h; exact absurd h (by decide)

/-- C2 (amended): for every truthy record with no truthy top-level
identifier but truthy values in both nested-source fields, `getFileId`
returns the nested-source legacy field `source.permit_file_id`: the nested
legacy field takes precedence over the nested current field. -/
theorem getFileId_nested_legacy_precedence (t : Value)
    (ht : truthy t = true)
    (h1 : truthy (fld t "file_id") = false)
    (h2 : truthy (fld t "permit_file_id") = false)
    (h3 : truthy (optAccess (fld t "source") "permit_file_id") = true)
    (_h4 : truthy (optAccess (fld t "source") "file_id") = true) :
    getFileId t = some (optAccess (fld t "source") "permit_file_id") := by
  simp [getFileId_eq, getFileIdVal, ht, jsOr_of_falsy h1, jsOr_of_falsy h2,
    jsOr_of_truthy h3]

/-- C2 witness: the amended precedence applied to a record whose source
carries both nested identifier fields. -/
theorem getFileId_nested_legacy_precedence_witness :
    getFileId (vObj [("source",
        vObj [("permit_file_id", vStr "OLD-2"), ("file_id", vStr "NEW-2")])])
      = some (vStr "OLD-2") :=
  getFileId_nested_legacy_precedence
    (vObj [("source",
      vObj [("permit_file_id", vStr "OLD-2"), ("file_id", vStr "NEW-2")])])
    rfl rfl rfl rfl rfl

/-- C3 counterexample: on a task whose only assignee information is
`assigned_to_employee_code`, `getAssignedTo` resolves that value but
`normalizeTask` overlays `undefined`: the overlay in `normalizeTask` probes
only `assigned_to || assignment || employee_code` and never consults
`assigned_to_employee_code`. -/
theorem normalizeTask_assignedTo_counterexample :
    normalizeTask (vObj [("assigned_to_employee_code", vStr "EMP-7")])
        = some (vObj [("assigned_to_employee_code", vStr "EMP-7"),
            ("file_id", vNull), ("tracking_mode", vStr "STANDALONE"),
            ("assigned_to", vUndefined)])
      ∧ getAssignedTo (vObj [("assigned_to_employee_code", vStr "EMP-7")])
          = some (vStr "EMP-7")
      ∧ vUndefined ≠ vStr "EMP-7" := by
  refine ⟨rfl, rfl, ?_⟩
  intro h; exact Value.noConfusion h

/-- C3 (amended): on truthy input the `assigned_to` value `normalizeTask`
overlays is the `||`-chain of the three fields `assigned_to`, `assignment`,
`employee_code` only (never `assigned_to_employee_code`, and with no final
`null` default); it agrees with `getAssignedTo` whenever one of those three
fields is truthy. -/
theorem normalizeTask_assignedTo_overlay (t : Value) (ht : truthy t = true) :
    (normalizeTask t = some (normalizeTaskVal t)
      ∧ fld (normalizeTaskVal t) "assigned_to" =
          jsOr (fld t "assigned_to")
            (jsOr (fld t "assignment") (fld t "employee_code")))
  ∧ ((truthy (fld t "assigned_to") || truthy (fld t "assignment")
        || truthy (fld t "employee_code")) = true →
      getAssignedTo t = some (getAssignedToVal t)
      ∧ fld (normalizeTaskVal t) "assigned_to" = getAssignedToVal t) := by
  refine ⟨⟨normalizeTask_eq t, fld_normalizeTaskVal_assignedTo ht⟩,
    fun h => ⟨getAssignedTo_eq t, ?_⟩⟩
  rw [fld_normalizeTaskVal_assignedTo ht]
  simp only [getAssignedToVal, ht, Bool.not_true, Bool.false_eq_true, if_false]
  cases hA : truthy (fld t "assigned_to") with
  | true => simp [jsOr_of_truthy hA]
  | false =>
    cases hB : truthy (fld t "assignment") with
    | true => simp [jsOr_of_falsy hA, jsOr_of_truthy hB]
    | false =>
      cases hC : truthy (fld t "employee_code") with
      | true => simp [jsOr_of_falsy hA, jsOr_of_falsy hB, jsOr_of_truthy hC]
      | false => simp [hA, hB, hC] at h

/-- C3 witness: the amended overlay law applied to a task with a truthy
explicit `assigned_to`. -/
theorem normalizeTask_assignedTo_overlay_witness :
    fld (normalizeTaskVal (vObj [("assigned_to", vStr "E1")])) "assigned_to"
      = getAssignedToVal (vObj [("assigned_to", vStr "E1")]) :=
  ((normalizeTask_assignedTo_overlay (vObj [("assigned_to", vStr "E1")])
    rfl).2 rfl).2

/-- C4: every exported helper of the module is total: on every input value,
of any shape including `null`/`undefined`, wrong-typed values and records
with missing fields, the embedded function returns `some` result, i.e. the
JavaScript function never raises. -/
theorem taskHelpers_never_raise (v : Value) :
    (getFileId v).isSome = true
  ∧ (isStandaloneTask v).isSome = true
  ∧ (getTrackingMode v).isSome = true
  ∧ (normalizeTask v).isSome = true
  ∧ (normalizeTasks v).isSome = true
  ∧ (getFileDisplayName v).isSome = true
  ∧ (getAssignmentInfo v).isSome = true
  ∧ (getAssignedTo v).isSome = true
  ∧ (formatTrackingMode v).isSome = true
  ∧ (getTrackingModeBadgeVariant v).isSome = true := by
  refine ⟨by simp [getFileId_eq], by simp [isStandaloneTask_eq],
    by simp [getTrackingMode_eq], by simp [normalizeTask_eq], ?_,
    by simp [getFileDisplayName_eq], by simp [getAssignmentInfo_eq],
    by simp [getAssignedTo_eq], by simp [formatTrackingMode],
    by simp [getTrackingModeBadgeVariant]⟩
  cases v <;> simp [normalizeTasks, mapNormalize_eq]

/-- C5: identifier resolution is idempotent over normalization: for every
input `t`, `normalizeTask t` succeeds and `getFileId` of the normalized
record equals `getFileId t`. -/
theorem getFileId_idempotent_over_normalize (t : Value) :
    normalizeTask t = some (normalizeTaskVal t)
    ∧ getFileId (normalizeTaskVal t) = getFileId t := by
  refine ⟨normalizeTask_eq t, ?_⟩
  cases ht : truthy t with
  | false => simp [normalizeTaskVal, ht]
  | true =>
    have hv : truthy (normalizeTaskVal t) = true := by
      simp only [normalizeTaskVal, ht, Bool.not_true, Bool.false_eq_true,
        if_false]
      rfl
    have e1 := fld_normalizeTaskVal_fileId ht
    have e2 := @fld_normalizeTaskVal_ne t ht "permit_file_id"
      (by decide) (by decide) (by decide)
    have e3 := @fld_normalizeTaskVal_ne t ht "source"
      (by decide) (by decide) (by decide)
    simp only [getFileId_eq, getFileIdVal, hv, ht, Bool.not_true,
      Bool.false_eq_true, if_false, e1, e2, e3, Option.some.injEq]
    exact jsOr_absorb _ _

/-- C6: `getAssignmentInfo` never mixes the two schema shapes: on a truthy
file, a truthy `current_assignment` determines every field of the result
from `current_assignment` alone; otherwise a truthy legacy `assignment`
determines every field from `assignment` alone with `assignedToName`
`undefined`; otherwise the result is `null`. -/
theorem getAssignmentInfo_no_mixing (f : Value) (hf : truthy f = true) :
    (truthy (fld f "current_assignment") = true →
      getAssignmentInfo f = some (vObj
        [("assignedTo", fld (fld f "current_assignment") "employee_code"),
         ("assignedToName", fld (fld f "current_assignment") "employee_name"),
         ("assignedAt", vDate (fld (fld f "current_assignment") "assigned_at")),
         ("stage", fld (fld f "current_assignment") "stage")]))
  ∧ (truthy (fld f "current_assignment") = false →
      truthy (fld f "assignment") = true →
      getAssignmentInfo f = some (vObj
        [("assignedTo", fld (fld f "assignment") "assigned_to"),
         ("assignedToName", vUndefined),
         ("assignedAt", vDate (fld (fld f "assignment") "assigned_at")),
         ("stage", fld (fld f "assignment") "assigned_for_stage")]))
  ∧ (truthy (fld f "current_assignment") = false →
      truthy (fld f "assignment") = false →
      getAssignmentInfo f = some vNull) := by
  refine ⟨fun hca => ?_, fun hca ha => ?_, fun hca ha => ?_⟩
  · simp [getAssignmentInfo_eq, getAssignmentInfoVal, hf, hca]
  · simp [getAssignmentInfo_eq, getAssignmentInfoVal, hf, hca, ha]
  · simp [getAssignmentInfo_eq, getAssignmentInfoVal, hf, hca, ha]

/-- C6 witness: a file carrying only a legacy `assignment` object yields the
legacy-shaped result whose `assignedToName` is `undefined`. -/
theorem getAssignmentInfo_no_mixing_witness :
    getAssignmentInfo (vObj [("assignment", vObj
        [("assigned_to", vStr "E9"), ("assigned_at", vStr "2024-01-01"),
         ("assigned_for_stage", vStr "REVIEW")])])
      = some (vObj
        [("assignedTo", vStr "E9"), ("assignedToName", vUndefined),
         ("assignedAt", vDate (vStr "2024-01-01")),
         ("stage", vStr "REVIEW")]) :=
  (getAssignmentInfo_no_mixing (vObj [("assignment", vObj
      [("assigned_to", vStr "E9"), ("assigned_at", vStr "2024-01-01"),
       ("assigned_for_stage", vStr "REVIEW")])]) rfl).2.1 rfl rfl

/-- C7: `normalizeTask` maps `null` to `null` and `undefined` to
`undefined`; on truthy input it builds a new record in which every property
other than the three overlay fields `file_id`, `tracking_mode` and
`assigned_to` is bound exactly as in the input (non-destructive overlay;
the embedding is pure, so the input itself is never changed). -/
theorem normalizeTask_frame (t : Value) (k : String)
    (h1 : k ≠ "file_id") (h2 : k ≠ "tracking_mode") (h3 : k ≠ "assigned_to") :
    normalizeTask vNull = some vNull
  ∧ normalizeTask vUndefined = some vUndefined
  ∧ (truthy t = true →
      normalizeTask t = some (normalizeTaskVal t)
      ∧ lookupKey (ownFields (normalizeTaskVal t)) k
          = lookupKey (ownFields t) k) := by
  refine ⟨rfl, rfl, fun ht => ⟨normalizeTask_eq t, ?_⟩⟩
  simp [normalizeTaskVal, ht, ownFields, lookup_setKey_ne _ _ (Ne.symm h3),
    lookup_setKey_ne _ _ (Ne.symm h2), lookup_setKey_ne _ _ (Ne.symm h1)]

/-- C7 witness: the frame law applied to a task with a `status` property,
which normalization preserves verbatim. -/
theorem normalizeTask_frame_witness :
    normalizeTask (vObj [("status", vStr "OPEN")])
      = some (normalizeTaskVal (vObj [("status", vStr "OPEN")]))
    ∧ lookupKey (ownFields (normalizeTaskVal (vObj [("status", vStr "OPEN")])))
        "status" = some (vStr "OPEN") := by
  have h := (normalizeTask_frame (vObj [("status", vStr "OPEN")]) "status"
    (by decide) (by decide) (by decide)).2.2 rfl
  exact ⟨h.1, by rw [h.2]; rfl⟩

/-- C8: `normalizeTasks` on any non-array input returns the empty array
rather than failing; on an array it returns an array of the same length
whose i-th element is the `normalizeTask` image of the i-th input element,
in input order. -/
theorem normalizeTasks_shape (v : Value) :
    ((∀ es, v ≠ vArr es) → normalizeTasks v = some (vArr []))
  ∧ (∀ es, v = vArr es →
      normalizeTasks v = some (vArr (es.map normalizeTaskVal))
      ∧ (es.map normalizeTaskVal).length = es.length
      ∧ ∀ i, i < es.length →
          normalizeTask (es.getD i vNull)
            = some ((es.map normalizeTaskVal).getD i vNull)) := by
  constructor
  · intro h
    cases v with
    | vArr es => exact absurd rfl (h es)
    | vNull => rfl
    | vUndefined => rfl
    | vBool b => rfl
    | vNum n => rfl
    | vStr s => rfl
    | vObj fs => rfl
    | vDate a => rfl
  · rintro es rfl
    refine ⟨normalizeTasks_arr es, es.length_map normalizeTaskVal,
      fun i hi => ?_⟩
    rw [normalizeTask_eq, getD_map_normalizeTaskVal es i hi]

/-- C8 witness: a plain object degrades to the empty array, and a
one-element array maps elementwise (a falsy element passes through
`normalizeTask` unchanged). -/
theorem normalizeTasks_shape_witness :
    normalizeTasks (vObj []) = some (vArr [])
    ∧ normalizeTasks (vArr [vNull]) = some (vArr [vNull]) := by
  constructor
  · exact (normalizeTasks_shape (vObj [])).1 (fun es h => Value.noConfusion h)
  · exact ((normalizeTasks_shape (vArr [vNull])).2 [vNull] rfl).1

/-- C9: whenever the current-schema top-level `file_id` is truthy,
`getFileId` returns exactly that value, whatever the legacy and nested
fields hold. -/
theorem getFileId_top_precedence (t : Value)
    (h : truthy (fld t "file_id") = true) :
    getFileId t = some (fld t "file_id") := by
  have ht := truthy_of_truthy_fld h
  simp [getFileId_eq, getFileIdVal, ht, jsOr_of_truthy h]

/-- C9 witness: the precedence law applied to a record that also carries a
legacy top-level identifier and a nested legacy identifier. -/
theorem getFileId_top_precedence_witness :
    getFileId (vObj [("file_id", vStr "F-1"), ("permit_file_id", vStr "P-9"),
        ("source", vObj [("permit_file_id", vStr "P-8")])])
      = some (vStr "F-1") :=
  getFileId_top_precedence
    (vObj [("file_id", vStr "F-1"), ("permit_file_id", vStr "P-9"),
      ("source", vObj [("permit_file_id", vStr "P-8")])]) rfl

/-- C10: on every falsy input (in particular `null` and `undefined`)
`isStandaloneTask` returns `false` while `getTrackingMode` returns
`STANDALONE`: the two operations disagree about absent tasks. -/
theorem absent_task_disagreement (v : Value) (h : truthy v = false) :
    isStandaloneTask v = some (vBool false)
    ∧ getTrackingMode v = some (vStr "STANDALONE") := by
  constructor <;>
    simp [isStandaloneTask_eq, isStandaloneTaskVal, getTrackingMode_eq,
      getTrackingModeVal, h]

/-- C10 witness: the disagreement at the absent task `null`. -/
theorem absent_task_disagreement_witness :
    isStandaloneTask vNull = some (vBool false)
    ∧ getTrackingMode vNull = some (vStr "STANDALONE") :=
  absent_task_disagreement vNull rfl
